import Mathlib

/-!
Shallow embedding of `src/scheduler.ts` (mckelvey-ai-scheduler).

The effectful parts of the program are made explicit:
* the contents of the persisted task store `work/tasks.json` are passed
  around as a `List Task` (mirroring `readTasks`/`writeTasks`);
* the responses of the external model services (the pre-process verdict,
  the generation result, the post-process decision) are parameters of the
  embedded functions;
* every `writeTasks` call performed by a scheduling step is recorded in a
  write log, so that "no store write happened" is statable;
* `Array.prototype.sort` (V8, stable for any consistent comparator) on a
  comparator `cmp` is modelled as the stable `List.mergeSort` with the
  boolean order `fun a b => cmp a b ≤ 0`; for a total transitive order
  the stable sort is unique, so this is exact.
-/

namespace Scheduler

/-- Priority levels of a task, from `z.enum(["low", "medium", "high"])` in
`TaskSchema` (src/scheduler.ts line 19). -/
inductive Priority where
  | low
  | medium
  | high
  deriving DecidableEq

/-- One entry of a task's work ledger: `{ work_summary: z.string() }`
(src/scheduler.ts lines 20-22). -/
structure WorkEntry where
  work_summary : String
  deriving DecidableEq

/-- The task record of `TaskSchema` (src/scheduler.ts lines 15-25). -/
structure Task where
  id : Nat
  parentId : Nat
  description : String
  priority : Priority
  work_ledger : List WorkEntry
  requirements_for_success : String
  completed : Bool
  deriving DecidableEq

/-- Index of a priority in the source's
`priorityOrder = ["low", "medium", "high"]` (src/scheduler.ts line 84),
i.e. `priorityOrder.indexOf`. -/
def priorityOrderIndex : Priority → Nat
  | .low => 0
  | .medium => 1
  | .high => 2

/-- Embeds `compareTaskPriority` (src/scheduler.ts lines 83-86):
`priorityOrder.indexOf(a.priority) - priorityOrder.indexOf(b.priority)`. -/
def compareTaskPriority (a b : Task) : Int :=
  (priorityOrderIndex a.priority : Int) - (priorityOrderIndex b.priority : Int)

/-- The boolean order induced by the JS comparator: a stable JS sort places
`a` no later than `b` exactly when `compareTaskPriority a b ≤ 0`. -/
def taskSortLE (a b : Task) : Bool :=
  compareTaskPriority a b ≤ 0

/-- The candidate list of `getTaskList` before sorting: the two chained
`filter` calls of src/scheduler.ts lines 91-93 resp. 96-97. The source
checks `taskStack.length > 0` and reads `taskStack[taskStack.length - 1]`,
the last pushed element; a list is non-empty exactly when `getLast?` is
`some`. -/
def candidateList (tasks : List Task) (taskStack : List Nat) : List Task :=
  match taskStack.getLast? with
  | some top =>
      (tasks.filter (fun task => task.parentId == top)).filter
        (fun task => task.completed == false)
  | none => tasks.filter (fun task => task.completed == false)

/-- Embeds `getTaskList` (src/scheduler.ts lines 88-99) with the parsed
contents of `work/tasks.json` passed explicitly: filter by the top of the
stack (if any) and by `completed === false`, then `.sort(compareTaskPriority)`. -/
def getTaskList (tasks : List Task) (taskStack : List Nat) : List Task :=
  (candidateList tasks taskStack).mergeSort taskSortLE

/-- One subtask description returned by the pre-process model inside a
`subtasks` verdict (src/scheduler.ts lines 160-167 of `TaskProcessSchema`). -/
structure SubtaskSpec where
  task_description : String
  requirements_for_success : String
  priority : Priority
  deriving DecidableEq

/-- The discriminated union `TaskProcessSchema` (src/scheduler.ts lines
157-184): the verdict of `preProcessTask`. -/
inductive TaskProcess where
  | subtasks (subtasks : List SubtaskSpec)
  | executePrompt (prompt : String)
  | notReady (reason : String) (missingDependencies : Option (List String))
  deriving DecidableEq

/-- The status of `PostProcessDecisionSchema` (src/scheduler.ts lines
234-237); `continue'` stands for the source's `"continue"`, which is a
keyword in Lean. -/
inductive PostStatus where
  | complete
  | continue'
  | defer
  deriving DecidableEq

/-- The decision returned by `postProcessTask` (src/scheduler.ts lines
234-237). -/
structure PostProcessDecision where
  status : PostStatus
  reason : Option String
  deriving DecidableEq

/-- The mutable state a scheduling step touches: the module-level `taskNum`
counter (src/scheduler.ts line 9), the parsed contents of `work/tasks.json`,
the caller's `taskStack` array (mutated by `push`), and a log of every
`writeTasks` payload, so that the absence of a store write is statable. -/
structure SchedState where
  taskNum : Nat
  store : List Task
  taskStack : List Nat
  writeLog : List (List Task)
  deriving DecidableEq

/-- Embeds the subtask-creating `map` of `processTask` (src/scheduler.ts
lines 284-295): each subtask first increments `taskNum` and then uses it as
its `id`, with `parentId = task.id`, an empty ledger and `completed: false`. -/
def makeSubtaskList (startNum : Nat) (task : Task) :
    List SubtaskSpec → List Task
  | [] => []
  | s :: rest =>
      { id := startNum + 1
        parentId := task.id
        description := s.task_description
        priority := s.priority
        work_ledger := []
        requirements_for_success := s.requirements_for_success
        completed := false } :: makeSubtaskList (startNum + 1) task rest

/-- Models the JS idiom `const u = arr.find(p); if (u) mutate(u)` followed by
writing the same array back: the first element satisfying `p` is replaced by
its mutation, all others are unchanged. -/
def updateFirst (p : Task → Bool) (f : Task → Task) : List Task → List Task
  | [] => []
  | t :: ts => if p t then f t :: ts else t :: updateFirst p f ts

/-- The structured generation result `TextOutputSchema` (src/scheduler.ts
lines 414-417). -/
structure TextOutput where
  content : String
  summary_of_work_done : String
  deriving DecidableEq

/-- The error thrown by `executePrompt` when the Generation Service returns
no parseable structured result (src/scheduler.ts lines 451-454). -/
inductive GenerationError where
  | noOutput
  deriving DecidableEq

/-- The effect of one `writeWorkFile` call (src/scheduler.ts lines 56-65):
the `mkdir` performed for a path with directories, the final path written,
and the content. The path handed to `writeFile` is `"./work/" + fileName`,
with `".md"` appended first when `fileName` contains no `"."`. -/
structure WriteEffect where
  mkdirPath : Option String
  path : String
  content : String
  deriving DecidableEq

/-- Models the JS `String.prototype.includes` test for a one-character
needle, over the string's characters. -/
def stringHas (s : String) (c : Char) : Bool :=
  s.data.contains c

/-- Embeds `writeWorkFile` (src/scheduler.ts lines 56-65). The `mkdir` path
is computed from the original `fileName` (`split("/").slice(0, -1).join("/")`)
before the extension check mutates it. -/
def writeWorkFile (fileName content : String) : WriteEffect :=
  let mkdirPath :=
    if stringHas fileName '/' then
      some ("./work/" ++ String.intercalate "/" (fileName.splitOn "/").dropLast)
    else none
  let finalName := if !stringHas fileName '.' then fileName ++ ".md" else fileName
  { mkdirPath := mkdirPath, path := "./work/" ++ finalName, content := content }

/-- Embeds `executePrompt` (src/scheduler.ts lines 420-461). Context
resolution and the save-location query are read-only; `genOutput` is the
Generation Service's parsed structured result (`response.output_parsed`),
`none` when there is none. With no output the function throws before any
write; otherwise it writes the content to the resolved save location and
returns `summary_of_work_done`. -/
def executePrompt (saveLocationPath : String) (genOutput : Option TextOutput) :
    Except GenerationError (WriteEffect × String) :=
  match genOutput with
  | none => .error .noOutput
  | some o =>
      .ok (writeWorkFile saveLocationPath o.content, o.summary_of_work_done)

/-- The control outcome of one `processTask` call: either its `{ next }`
return value, or the `GenerationError` thrown out of `executePrompt`
(uncaught in `processTask`). -/
inductive ProcOutcome where
  | next (b : Bool)
  | genError
  deriving DecidableEq

/-- The result of one `processTask` call: the state after the call, its
control outcome, and the task value handed to `postProcessTask` (`none`
when post-processing is not reached). -/
structure ProcResult where
  state : SchedState
  outcome : ProcOutcome
  evaluated : Option Task
  deriving DecidableEq

/-- The ledger text `task.work_ledger.map((work) => work.work_summary).join("\n")`
used at src/scheduler.ts lines 200, 265 and 307. -/
def joinedLedgerText (t : Task) : String :=
  String.intercalate "\n" (t.work_ledger.map (·.work_summary))

/-- Embeds `processTask` (src/scheduler.ts lines 277-333). The external
responses are parameters: `pre` is `preProcessTask`'s verdict,
`saveLocationPath` and `genOutput` determine `executePrompt`'s behaviour,
and `post` is `postProcessTask`'s decision. `readTasks()` inside the
function reads `st.store`; each `writeTasks` replaces `store` and is
recorded in `writeLog`. The artifact write performed by a successful
`executePrompt` targets the work directory, not the parsed task store
modelled here. Note that post-processing is applied to the `task`
argument itself, not to the re-read, ledger-extended copy. -/
def processTask (pre : TaskProcess) (saveLocationPath : String)
    (genOutput : Option TextOutput) (post : PostProcessDecision)
    (task : Task) (st : SchedState) : ProcResult :=
  match pre with
  | .notReady _ _ => { state := st, outcome := .next true, evaluated := none }
  | .subtasks subs =>
      let subtaskList := makeSubtaskList st.taskNum task subs
      let currentTasks := st.store
      let newStore := currentTasks ++ subtaskList
      { state :=
          { taskNum := st.taskNum + subs.length
            store := newStore
            taskStack := st.taskStack ++ [task.id]
            writeLog := st.writeLog ++ [newStore] }
        outcome := .next true
        evaluated := none }
  | .executePrompt _ =>
      match executePrompt saveLocationPath genOutput with
      | .error _ => { state := st, outcome := .genError, evaluated := none }
      | .ok (_, output) =>
          let currentTasks := st.store
          let st1 :=
            if currentTasks.any (fun t => t.id == task.id) then
              let ns := updateFirst (fun t => t.id == task.id)
                (fun t =>
                  { t with work_ledger :=
                      t.work_ledger ++ [{ work_summary := output }] })
                currentTasks
              { st with store := ns, writeLog := st.writeLog ++ [ns] }
            else st
          match post.status with
          | .complete =>
              let currentTasks2 := st1.store
              if currentTasks2.any (fun t => t.id == task.id) then
                let ns2 := updateFirst (fun t => t.id == task.id)
                  (fun t => { t with completed := true }) currentTasks2
                { state :=
                    { st1 with store := ns2, writeLog := st1.writeLog ++ [ns2] }
                  outcome := .next true
                  evaluated := some task }
              else
                { state := st1, outcome := .next true, evaluated := some task }
          | .defer => { state := st1, outcome := .next true, evaluated := some task }
          | .continue' =>
              { state := st1, outcome := .next false, evaluated := some task }

/-- Models `readWorkFile` (src/scheduler.ts lines 46-54): the argument is
the file's content, `none` when the underlying read throws (absent or
unreadable file); the `catch` turns that into `undefined`. -/
def readWorkFile (file : Option String) : Option String :=
  file

/-- Embeds `readTasks` (src/scheduler.ts lines 71-77), parameterised over
the JSON runtime: `parse` models `JSON.parse`, which throws on invalid
input; `readTasks` itself guards only the truthiness of the read result
(`if (tasks)` — defined and non-empty), with no `try`/`catch` around
`JSON.parse`, so a parse error propagates. -/
def readTasks (parse : String → Except String (List Task))
    (file : Option String) : Except String (List Task) :=
  match readWorkFile file with
  | some s => if s = "" then .ok [] else parse s
  | none => .ok []

/-- Concrete model of `JSON.parse` for the inputs used in the development:
it parses the serialized empty collection and throws on plain text that is
not JSON, as `JSON.parse` does. -/
def jsonParseModel (s : String) : Except String (List Task) :=
  if s = "[]" then .ok [] else .error "SyntaxError: Unexpected token"

/-- One entry of the `./work` directory tree as returned by
`readdir("./work", { recursive: true })`: a relative path plus whether the
entry is a directory. -/
structure DirEntry where
  path : String
  isDirectory : Bool
  deriving DecidableEq

/-- Embeds `readWorkDirTree` (src/scheduler.ts lines 39-44): `readdir`
returns the names of all entries, files and directories alike, and the
function keeps exactly the names for which `item.includes(".")` is false. -/
def readWorkDirTree (tree : List DirEntry) : List String :=
  (tree.map (·.path)).filter (fun item => !stringHas item '.')

/-- A low-priority candidate task, for the priority-ordering example. -/
def taskLow : Task :=
  { id := 1, parentId := 0, description := "low task", priority := .low
    work_ledger := [], requirements_for_success := "r1", completed := false }

/-- A high-priority candidate task, for the priority-ordering example. -/
def taskHigh : Task :=
  { id := 2, parentId := 0, description := "high task", priority := .high
    work_ledger := [], requirements_for_success := "r2", completed := false }

/-- A medium-priority candidate task, for the priority-ordering example. -/
def taskMed : Task :=
  { id := 3, parentId := 0, description := "medium task", priority := .medium
    work_ledger := [], requirements_for_success := "r3", completed := false }

/-- A root task persisted with id 1, as left behind by a previous process
run. -/
def persistedRoot : Task :=
  { id := 1, parentId := 0, description := "persisted root", priority := .high
    work_ledger := [], requirements_for_success := "done", completed := false }

/-- A scheduler state at process start-up after reading a persisted store:
`taskNum` is the module initialiser `0` while the store already holds
`persistedRoot` with id 1. -/
def restartState : SchedState :=
  { taskNum := 0, store := [persistedRoot], taskStack := [], writeLog := [] }

/-- A subtask specification used in the decomposition examples. -/
def subSpecA : SubtaskSpec :=
  { task_description := "child step", requirements_for_success := "req"
    priority := .medium }

/-- A task used in the execute-branch examples. -/
def execTask : Task :=
  { id := 4, parentId := 0, description := "exec task", priority := .high
    work_ledger := [], requirements_for_success := "r4", completed := false }

/-- A state whose store holds exactly `execTask`. -/
def execState : SchedState :=
  { taskNum := 4, store := [execTask], taskStack := [], writeLog := [] }

/-- A directory tree for `./work` holding one directory and one file with
an extension inside it. -/
def workTreeExample : List DirEntry :=
  [{ path := "notes", isDirectory := true },
   { path := "notes/chapter_01.md", isDirectory := false }]

lemma mem_candidateList (tasks : List Task) (taskStack : List Nat) (t : Task) :
    t ∈ candidateList tasks taskStack ↔
      t ∈ tasks ∧ t.completed = false ∧
        ∀ top, taskStack.getLast? = some top → t.parentId = top := by
  unfold candidateList
  cases h : taskStack.getLast? with
  | none => simp
  | some top =>
      simp only [List.mem_filter, beq_iff_eq, Option.some.injEq]
      constructor
      · rintro ⟨⟨ht, hp⟩, hc⟩
        exact ⟨ht, hc, fun top' htop' => htop' ▸ hp⟩
      · rintro ⟨ht, hc, hp⟩
        exact ⟨⟨ht, hp top rfl⟩, hc⟩

lemma taskSortLE_iff (a b : Task) :
    taskSortLE a b = true ↔
      priorityOrderIndex a.priority ≤ priorityOrderIndex b.priority := by
  simp only [taskSortLE, compareTaskPriority, decide_eq_true_eq]
  omega

lemma taskSortLE_trans :
    ∀ a b c : Task, taskSortLE a b → taskSortLE b c → taskSortLE a c := by
  intro a b c hab hbc
  rw [taskSortLE_iff] at hab hbc ⊢
  omega

lemma taskSortLE_total : ∀ a b : Task, taskSortLE a b || taskSortLE b a := by
  intro a b
  rw [Bool.or_eq_true, taskSortLE_iff, taskSortLE_iff]
  omega

lemma getTaskList_perm_candidates (tasks : List Task) (taskStack : List Nat) :
    (getTaskList tasks taskStack).Perm (candidateList tasks taskStack) :=
  List.mergeSort_perm (candidateList tasks taskStack) taskSortLE

lemma getTaskList_pairwise (tasks : List Task) (taskStack : List Nat) :
    (getTaskList tasks taskStack).Pairwise
      (fun a b => priorityOrderIndex a.priority ≤ priorityOrderIndex b.priority) :=
  (List.sorted_mergeSort taskSortLE_trans taskSortLE_total
    (candidateList tasks taskStack)).imp (fun hab => (taskSortLE_iff _ _).mp hab)

lemma getTaskList_filter_priority (tasks : List Task) (taskStack : List Nat)
    (p : Priority) :
    (getTaskList tasks taskStack).filter (fun t => t.priority == p)
      = (candidateList tasks taskStack).filter (fun t => t.priority == p) := by
  have hself :
      ((candidateList tasks taskStack).filter (fun t => t.priority == p)).filter
          (fun t => t.priority == p)
        = (candidateList tasks taskStack).filter (fun t => t.priority == p) :=
    List.filter_eq_self.mpr (fun a ha => (List.mem_filter.mp ha).2)
  have hsub :
      ((candidateList tasks taskStack).filter (fun t => t.priority == p)).Sublist
        (getTaskList tasks taskStack) := by
    apply List.sublist_mergeSort taskSortLE_trans taskSortLE_total
    · refine List.pairwise_of_forall_mem_list (fun a ha b hb => ?_)
      have hap := (List.mem_filter.mp ha).2
      have hbp := (List.mem_filter.mp hb).2
      rw [beq_iff_eq] at hap hbp
      rw [taskSortLE_iff, hap, hbp]
    · exact List.filter_sublist _
  have hsub2 :
      ((candidateList tasks taskStack).filter (fun t => t.priority == p)).Sublist
        ((getTaskList tasks taskStack).filter (fun t => t.priority == p)) := by
    have := hsub.filter (fun t => t.priority == p)
    rwa [hself] at this
  have hlen :
      ((candidateList tasks taskStack).filter (fun t => t.priority == p)).length
        = ((getTaskList tasks taskStack).filter (fun t => t.priority == p)).length :=
    (((getTaskList_perm_candidates tasks taskStack).filter
      (fun t => t.priority == p)).length_eq).symm
  exact (hsub2.eq_of_length hlen).symm

lemma getTaskList_example_eval :
    getTaskList [taskLow, taskHigh, taskMed] [] = [taskLow, taskMed, taskHigh] := by
  simp [getTaskList, candidateList, taskLow, taskHigh, taskMed,
    List.mergeSort, List.splitInTwo, List.splitAt, List.splitAt.go, List.merge,
    taskSortLE, compareTaskPriority, priorityOrderIndex]

/-- C1: for every task stack and stored collection, `getTaskList` returns
exactly the tasks with `completed = false` whose `parentId` equals the top
of the stack when the stack is non-empty, and exactly all incomplete tasks
when the stack is empty; in particular a completed task is never returned,
for any stack. -/
theorem getTaskList_selects_exactly (tasks : List Task) (taskStack : List Nat)
    (t : Task) :
    t ∈ getTaskList tasks taskStack ↔
      t ∈ tasks ∧ t.completed = false ∧
        ∀ top, taskStack.getLast? = some top → t.parentId = top := by
  unfold getTaskList
  rw [List.mem_mergeSort]
  exact mem_candidateList tasks taskStack t

/-- C2 (amended): `getTaskList` returns the candidates ordered by priority
ascending — every `low` before every `medium` before every `high` — and is
otherwise exact: the output is a permutation of the candidate list and, for
each priority, the subsequence of that priority preserves store iteration
order (stable sort); the example candidates with priorities
`[low, high, medium]` come back ordered `[low, medium, high]`. -/
theorem getTaskList_priority_ascending_stable (tasks : List Task)
    (taskStack : List Nat) :
    (getTaskList tasks taskStack).Perm (candidateList tasks taskStack) ∧
    (getTaskList tasks taskStack).Pairwise
      (fun a b => priorityOrderIndex a.priority ≤ priorityOrderIndex b.priority) ∧
    (∀ p : Priority,
      (getTaskList tasks taskStack).filter (fun t => t.priority == p)
        = (candidateList tasks taskStack).filter (fun t => t.priority == p)) ∧
    getTaskList [taskLow, taskHigh, taskMed] [] = [taskLow, taskMed, taskHigh] :=
  ⟨getTaskList_perm_candidates tasks taskStack,
   getTaskList_pairwise tasks taskStack,
   getTaskList_filter_priority tasks taskStack,
   getTaskList_example_eval⟩

/-- C2 counterexample: candidates with priorities `[low, high, medium]` do
not come back ordered `[high, medium, low]` — `compareTaskPriority` sorts
by ascending index in `["low", "medium", "high"]`, so the head of the
returned list is the low-priority task. -/
theorem getTaskList_descending_cex :
    getTaskList [taskLow, taskHigh, taskMed] [] ≠ [taskHigh, taskMed, taskLow] := by
  rw [getTaskList_example_eval]
  decide

lemma makeSubtaskList_length (startNum : Nat) (task : Task) :
    ∀ subs : List SubtaskSpec,
      (makeSubtaskList startNum task subs).length = subs.length := by
  intro subs
  induction subs generalizing startNum with
  | nil => rfl
  | cons s rest ih => simp [makeSubtaskList, ih]

lemma makeSubtaskList_mem (task : Task) :
    ∀ (subs : List SubtaskSpec) (startNum : Nat) (c : Task),
      c ∈ makeSubtaskList startNum task subs →
        c.parentId = task.id ∧ c.work_ledger = [] ∧ c.completed = false ∧
          startNum < c.id := by
  intro subs
  induction subs with
  | nil => intro startNum c hc; cases hc
  | cons s rest ih =>
      intro startNum c hc
      rcases List.mem_cons.mp hc with rfl | hc'
      · exact ⟨rfl, rfl, rfl, Nat.lt_succ_self startNum⟩
      · have h := ih (startNum + 1) c hc'
        exact ⟨h.1, h.2.1, h.2.2.1,
          Nat.lt_trans (Nat.lt_succ_self startNum) h.2.2.2⟩

/-- C3 (amended): processing a `subtasks` verdict of `n` subtasks appends
exactly `n` new child tasks to the store, each with `parentId = task.id`, an
empty ledger and `completed = false`; provided the process-local `taskNum`
counter is at least every id already in the store (as holds within a single
process run), each child id is fresh, unequal to every stored id; `task.id`
is pushed onto the stack and the directive is advance (`next = true`). -/
theorem processTask_subtasks_spec (subs : List SubtaskSpec)
    (saveLocationPath : String) (genOutput : Option TextOutput)
    (post : PostProcessDecision) (task : Task) (st : SchedState)
    (hctr : ∀ u ∈ st.store, u.id ≤ st.taskNum) :
    (processTask (.subtasks subs) saveLocationPath genOutput post task st).state.store
        = st.store ++ makeSubtaskList st.taskNum task subs ∧
    (processTask (.subtasks subs) saveLocationPath genOutput post task st).state.store.length
        = st.store.length + subs.length ∧
    (∀ c ∈ makeSubtaskList st.taskNum task subs,
      c.parentId = task.id ∧ c.work_ledger = [] ∧ c.completed = false ∧
        ∀ u ∈ st.store, c.id ≠ u.id) ∧
    (processTask (.subtasks subs) saveLocationPath genOutput post task st).state.taskStack
        = st.taskStack ++ [task.id] ∧
    (processTask (.subtasks subs) saveLocationPath genOutput post task st).outcome
        = .next true := by
  refine ⟨rfl, ?_, ?_, rfl, rfl⟩
  · simp [processTask, makeSubtaskList_length]
  · intro c hc
    have h := makeSubtaskList_mem task subs st.taskNum c hc
    refine ⟨h.1, h.2.1, h.2.2.1, fun u hu => ?_⟩
    have := hctr u hu
    omega

/-- C3 witness: a concrete decomposition of `execTask` into one subtask in a
state whose counter dominates the single stored id. -/
theorem processTask_subtasks_spec_witness :
    (∀ u ∈ execState.store, u.id ≤ execState.taskNum) ∧
    ((processTask (.subtasks [subSpecA]) "p" none ⟨.defer, none⟩ execTask execState).state.store
        = execState.store ++ makeSubtaskList execState.taskNum execTask [subSpecA] ∧
    (processTask (.subtasks [subSpecA]) "p" none ⟨.defer, none⟩ execTask execState).state.store.length
        = execState.store.length + 1 ∧
    (∀ c ∈ makeSubtaskList execState.taskNum execTask [subSpecA],
      c.parentId = execTask.id ∧ c.work_ledger = [] ∧ c.completed = false ∧
        ∀ u ∈ execState.store, c.id ≠ u.id) ∧
    (processTask (.subtasks [subSpecA]) "p" none ⟨.defer, none⟩ execTask execState).state.taskStack
        = execState.taskStack ++ [execTask.id] ∧
    (processTask (.subtasks [subSpecA]) "p" none ⟨.defer, none⟩ execTask execState).outcome
        = .next true) :=
  ⟨by decide,
   processTask_subtasks_spec [subSpecA] "p" none ⟨.defer, none⟩ execTask execState
     (by decide)⟩

/-- C3 counterexample: after a process restart the module counter is `0`
while the persisted store already holds a task with id `1`; decomposing that
task into one subtask allocates the child id `1`, which equals the id of a
task already in the store, so the created id is not fresh against this prior
store state. -/
theorem processTask_subtasks_fresh_cex :
    (processTask (.subtasks [subSpecA]) "p" none ⟨.defer, none⟩ persistedRoot restartState).state.store
        = [persistedRoot,
           { id := 1, parentId := 1, description := "child step",
             priority := .medium, work_ledger := [],
             requirements_for_success := "req", completed := false }] ∧
    persistedRoot.id = 1 := by
  exact ⟨rfl, rfl⟩

/-- C4: when the Generation Service returns no parseable structured result,
`executePrompt` throws before any write and `processTask` propagates the
error: the state — store, ledger, completion flags, stack and write log —
is exactly the pre-execution state, and post-processing is never reached. -/
theorem processTask_execute_failure (prompt saveLocationPath : String)
    (post : PostProcessDecision) (task : Task) (st : SchedState) :
    (processTask (.executePrompt prompt) saveLocationPath none post task st).state
        = st ∧
    (processTask (.executePrompt prompt) saveLocationPath none post task st).outcome
        = .genError ∧
    (processTask (.executePrompt prompt) saveLocationPath none post task st).evaluated
        = none :=
  ⟨rfl, rfl, rfl⟩

/-- C5 (code bug): after a successful execution with summary `"s"`,
`postProcessTask` is handed the original in-memory `task` value, whose
ledger text is the pre-append text and does not contain the entry appended
in step 4a — while the persisted store does hold the appended entry. -/
theorem processTask_postProcess_stale_ledger :
    (processTask (.executePrompt "p") "out" (some ⟨"content", "s"⟩)
        ⟨.defer, none⟩ execTask execState).evaluated = some execTask ∧
    joinedLedgerText execTask = "" ∧
    (processTask (.executePrompt "p") "out" (some ⟨"content", "s"⟩)
        ⟨.defer, none⟩ execTask execState).state.store
      = [{ execTask with work_ledger := [{ work_summary := "s" }] }] ∧
    joinedLedgerText { execTask with work_ledger := [{ work_summary := "s" }] }
      = "s" := by
  refine ⟨rfl, rfl, ?_, rfl⟩
  decide

/-- C8: a `notReady` verdict leaves the whole state — store, stack and
write log — unchanged and advances (`next = true`) without reaching
post-processing. -/
theorem processTask_notReady_frame (reason : String)
    (deps : Option (List String)) (saveLocationPath : String)
    (genOutput : Option TextOutput) (post : PostProcessDecision)
    (task : Task) (st : SchedState) :
    (processTask (.notReady reason deps) saveLocationPath genOutput post task st).state.store
        = st.store ∧
    (processTask (.notReady reason deps) saveLocationPath genOutput post task st).state.taskStack
        = st.taskStack ∧
    (processTask (.notReady reason deps) saveLocationPath genOutput post task st).state.writeLog
        = st.writeLog ∧
    (processTask (.notReady reason deps) saveLocationPath genOutput post task st).outcome
        = .next true :=
  ⟨rfl, rfl, rfl, rfl⟩

/-- C6 (amended): `readTasks` returns the empty collection when the
artifact is absent (the read throws and is caught), but when the artifact
holds non-empty content that fails to parse, the `JSON.parse` error
propagates out of `readTasks` — there is no `try`/`catch` around the parse. -/
theorem readTasks_absent_empty_unparsable_throws
    (parse : String → Except String (List Task)) (s e : String)
    (h1 : parse s = .error e) (h2 : s ≠ "") :
    readTasks parse none = .ok [] ∧ readTasks parse (some s) = .error e := by
  refine ⟨rfl, ?_⟩
  simp [readTasks, readWorkFile, h2, h1]

/-- C6 witness: the concrete `JSON.parse` model fails on plain text, and
`readTasks` propagates exactly that error while an absent artifact yields
the empty collection. -/
theorem readTasks_absent_empty_unparsable_throws_witness :
    jsonParseModel "no json here" = .error "SyntaxError: Unexpected token" ∧
    "no json here" ≠ "" ∧
    (readTasks jsonParseModel none = .ok [] ∧
      readTasks jsonParseModel (some "no json here")
        = .error "SyntaxError: Unexpected token") :=
  ⟨rfl, by decide,
   readTasks_absent_empty_unparsable_throws jsonParseModel "no json here"
     "SyntaxError: Unexpected token" rfl (by decide)⟩

/-- C6 counterexample: an artifact whose content is not parsable as JSON
makes `readTasks` propagate the parse error instead of returning the empty
collection. -/
theorem readTasks_unparsable_cex :
    readTasks jsonParseModel (some "no json here")
        = .error "SyntaxError: Unexpected token" ∧
    readTasks jsonParseModel (some "no json here")
        ≠ .ok ([] : List Task) := by
  constructor
  · rfl
  · simp [readTasks, readWorkFile, jsonParseModel]

/-- C7 (code bug): `readWorkDirTree` keeps exactly the entries whose name
contains no `"."`, so on a tree with a directory `notes` and a file
`notes/chapter_01.md` it returns the directory and excludes the file —
the opposite of listing all files and excluding directories, and contrary
to the source's own comment `// remove directories from the array`. -/
theorem readWorkDirTree_keeps_directory_drops_file :
    readWorkDirTree workTreeExample = ["notes"] ∧
    ({ path := "notes", isDirectory := true } : DirEntry) ∈ workTreeExample ∧
    ({ path := "notes/chapter_01.md", isDirectory := false } : DirEntry)
        ∈ workTreeExample ∧
    "notes/chapter_01.md" ∉ readWorkDirTree workTreeExample := by
  refine ⟨?_, by decide, by decide, by decide⟩
  decide

/-- C9: `writeWorkFile` writes to `./work/` plus exactly the resolved name
when that name contains a `"."` (has an extension), and appends the default
`.md` extension when it does not. -/
theorem writeWorkFile_extension (fileName content : String) :
    (stringHas fileName '.' = true →
      (writeWorkFile fileName content).path = "./work/" ++ fileName) ∧
    (stringHas fileName '.' = false →
      (writeWorkFile fileName content).path = "./work/" ++ fileName ++ ".md") := by
  constructor
  · intro h
    simp [writeWorkFile, h]
  · intro h
    simp [writeWorkFile, h, String.append_assoc]

/-- C9 witness: a resolved name without a dot gains `.md`, one with an
extension is written as is. -/
theorem writeWorkFile_extension_witness :
    stringHas "story" '.' = false ∧
    (writeWorkFile "story" "c").path = "./work/story.md" ∧
    stringHas "notes/a.md" '.' = true ∧
    (writeWorkFile "notes/a.md" "c").path = "./work/notes/a.md" :=
  ⟨by decide,
   ((writeWorkFile_extension "story" "c").2 (by decide)).trans (by decide),
   by decide,
   ((writeWorkFile_extension "notes/a.md" "c").1 (by decide)).trans (by decide)⟩

/-- C10: when the re-read store holds no task with the processed task's id,
the ledger append after a successful execution and the completed-flag
update after a `complete` decision are both silently skipped: no write is
performed, the state is unchanged, and no error is raised. -/
theorem processTask_missing_id_skips (prompt saveLocationPath : String)
    (o : TextOutput) (post : PostProcessDecision) (task : Task)
    (st : SchedState) (h : ∀ u ∈ st.store, u.id ≠ task.id) :
    (processTask (.executePrompt prompt) saveLocationPath (some o) post task st).state
        = st ∧
    (processTask (.executePrompt prompt) saveLocationPath (some o) post task st).outcome
        ≠ .genError := by
  have hany : (st.store.any fun t => t.id == task.id) = false := by
    rw [List.any_eq_false]
    intro u hu
    simp [h u hu]
  rcases post with ⟨status, reason⟩
  cases status <;> simp [processTask, executePrompt, hany]

/-- C10 witness: a store holding only a task with id 1 has no task with
`execTask`'s id 4, so processing `execTask` through a successful execution
and a `complete` decision changes nothing and raises no error. -/
theorem processTask_missing_id_skips_witness :
    (∀ u ∈ restartState.store, u.id ≠ execTask.id) ∧
    ((processTask (.executePrompt "p") "out" (some ⟨"c", "s"⟩)
        ⟨.complete, none⟩ execTask restartState).state = restartState ∧
      (processTask (.executePrompt "p") "out" (some ⟨"c", "s"⟩)
        ⟨.complete, none⟩ execTask restartState).outcome ≠ .genError) :=
  ⟨by decide,
   processTask_missing_id_skips "p" "out" ⟨"c", "s"⟩ ⟨.complete, none⟩
     execTask restartState (by decide)⟩

end Scheduler
